import Mathlib

/-!
Verification of the athenian-api pull-request mining core against its
natural-language specification.

The definitions below are a shallow embedding of the Python sources:
  * `src/server/athenian/api/controllers/miners/filters.py`
  * `src/server/athenian/api/cache.py`
  * `src/server/athenian/api/controllers/miners/github/pull_request.py`
Timestamps are modelled as `Option Nat` (with `none` standing for pandas
`NaT`); pandas comparisons against `NaT` yield `False`, which the `opt*`
helpers below reproduce.  DataFrames are modelled as lists of rows and
pandas `Index` sets as lists of ids with set-membership semantics.
-/

/-- pandas semantics of `v < t` where `v` may be `NaT`. -/
def optLt (a : Option Nat) (t : Nat) : Bool :=
  match a with
  | some x => decide (x < t)
  | none => false

/-- pandas semantics of `v <= t` where `v` may be `NaT`. -/
def optLe (a : Option Nat) (t : Nat) : Bool :=
  match a with
  | some x => decide (x ≤ t)
  | none => false

/-- pandas semantics of `v >= t` where `v` may be `NaT`. -/
def optGe (a : Option Nat) (t : Nat) : Bool :=
  match a with
  | some x => decide (t ≤ x)
  | none => false

/-- pandas semantics of `v > t` where `v` may be `NaT`. -/
def optGt (a : Option Nat) (t : Nat) : Bool :=
  match a with
  | some x => decide (t < x)
  | none => false

/-- pandas `Series.between(lo, hi)` (inclusive on both ends); `NaT` fails. -/
def optBetween (a : Option Nat) (lo hi : Nat) : Bool :=
  match a with
  | some x => decide (lo ≤ x) && decide (x ≤ hi)
  | none => false

/-- Membership of an optional value in a list (`Series.isin`; `None`/`NaN` never matches). -/
def optIsIn (a : Option String) (s : List String) : Bool :=
  match a with
  | some x => s.contains x
  | none => false

/-- `athenian.api.controllers.miners.filters.LabelFilter`: PR labels that must /
must not be carried.  The Python `include`/`exclude` are `Set[str]`; they are
modelled as lists with set-membership semantics. -/
structure LabelFilter where
  incl : List String
  excl : List String
deriving DecidableEq

/-- Python truthiness of a `LabelFilter`: at least one included or excluded label. -/
def LabelFilter.nonEmpty (f : LabelFilter) : Bool :=
  !f.incl.isEmpty || !f.excl.isEmpty

/-- `LabelFilter.compatible_with`: whether `other` can be applied to the items
already filtered by `self`
(`(not include or (other.include and include >= other.include)) and
  (not exclude or (other.exclude and exclude <= other.exclude))`). -/
def LabelFilter.compatible_with (s o : LabelFilter) : Bool :=
  (s.incl.isEmpty || (!o.incl.isEmpty && o.incl.all (fun x => s.incl.contains x)))
  &&
  (s.excl.isEmpty || (!o.excl.isEmpty && s.excl.all (fun x => o.excl.contains x)))

/-- `athenian.api.controllers.miners.filters.JIRAFilter`: JIRA traits selecting
the PRs attached to matching issues. -/
structure JIRAFilter where
  labels : LabelFilter
  epics : List String
  issue_types : List String
deriving DecidableEq

/-- Python truthiness of a `JIRAFilter`. -/
def JIRAFilter.nonEmpty (f : JIRAFilter) : Bool :=
  f.labels.nonEmpty || !f.epics.isEmpty || !f.issue_types.isEmpty

/-- `JIRAFilter.compatible_with`: label compatibility plus epic and issue-type
superset checks. -/
def JIRAFilter.compatible_with (s o : JIRAFilter) : Bool :=
  s.labels.compatible_with o.labels
  && (s.epics.isEmpty || (!o.epics.isEmpty && o.epics.all (fun x => s.epics.contains x)))
  && (s.issue_types.isEmpty ||
      (!o.issue_types.isEmpty && o.issue_types.all (fun x => s.issue_types.contains x)))

/-- The participation roles of `athenian.api.controllers.miners.types.ParticipationKind`. -/
inductive ParticipationKind where
  | AUTHOR
  | REVIEWER
  | COMMENTER
  | COMMIT_COMMITTER
  | COMMIT_AUTHOR
  | MERGER
  | RELEASER
deriving DecidableEq

/-- Participants map (role to set of user logins), modelled as an association
list standing for the Python `Dict[ParticipationKind, Set[str]]`. -/
abbrev Participants := List (ParticipationKind × List String)

/-- `participants.get(pk, set())`. -/
def participantsGet (p : Participants) (k : ParticipationKind) : List String :=
  match p.lookup k with
  | some v => v
  | none => []

/-- `PullRequestMiner._check_participants_compatibility`: an empty cached map
accepts everything; otherwise every requested role set must be contained in the
cached role set. -/
def checkParticipantsCompatibility (cached ps : Participants) : Bool :=
  if cached.isEmpty then true
  else if ps.isEmpty then false
  else ps.all (fun kv => kv.2.all (fun u => (participantsGet cached kv.1).contains u))

theorem list_contains_iff {α : Type} [BEq α] [LawfulBEq α] {l : List α} {a : α} :
    l.contains a = true ↔ a ∈ l := by
  simp [List.contains, List.elem_iff]

theorem labelFilter_contains_trans {a b c : List String}
    (hab : b.all (fun x => a.contains x) = true)
    (hbc : c.all (fun x => b.contains x) = true) :
    c.all (fun x => a.contains x) = true := by
  simp only [List.all_eq_true, list_contains_iff] at *
  intro x hx
  exact hab _ (hbc _ hx)

/-- C10: `LabelFilter.compatible_with` is a preorder: it is reflexive and, for
all filters `a`, `b`, `c`, compatibility of `a` with `b` and of `b` with `c`
yields compatibility of `a` with `c`. -/
theorem labelFilter_compatible_with_preorder (a b c : LabelFilter)
    (hab : a.compatible_with b = true) (hbc : b.compatible_with c = true) :
    a.compatible_with a = true ∧ a.compatible_with c = true := by
  constructor
  · simp only [LabelFilter.compatible_with, Bool.or_eq_true, Bool.and_eq_true,
      List.isEmpty_iff, List.all_eq_true, list_contains_iff]
    constructor
    · by_cases h : a.incl = []
      · exact Or.inl h
      · exact Or.inr ⟨by simpa [List.isEmpty_iff] using h, fun x hx => hx⟩
    · by_cases h : a.excl = []
      · exact Or.inl h
      · exact Or.inr ⟨by simpa [List.isEmpty_iff] using h, fun x hx => hx⟩
  · simp only [LabelFilter.compatible_with, Bool.or_eq_true, Bool.and_eq_true,
      Bool.not_eq_true', List.isEmpty_eq_true] at hab hbc ⊢
    obtain ⟨habI, habE⟩ := hab
    obtain ⟨hbcI, hbcE⟩ := hbc
    constructor
    · rcases habI with h | ⟨hbne, hsub⟩
      · exact Or.inl h
      · rcases hbcI with h | ⟨hcne, hsub2⟩
        · exact absurd h (by simpa [List.isEmpty_eq_true] using hbne)
        · exact Or.inr ⟨hcne, labelFilter_contains_trans hsub hsub2⟩
    · rcases habE with h | ⟨hbne, hsub⟩
      · exact Or.inl h
      · rcases hbcE with h | ⟨hcne, hsub2⟩
        · exact absurd h (by simpa [List.isEmpty_eq_true] using hbne)
        · refine Or.inr ⟨hcne, ?_⟩
          simp only [List.all_eq_true, list_contains_iff] at *
          intro x hx
          exact hsub2 _ (hsub _ hx)

theorem labelFilter_compatible_with_preorder_witness :
    LabelFilter.compatible_with ⟨["bug", "perf"], []⟩ ⟨["bug", "perf"], []⟩ = true ∧
    LabelFilter.compatible_with ⟨["bug", "perf"], []⟩ ⟨["bug"], []⟩ = true :=
  labelFilter_compatible_with_preorder
    ⟨["bug", "perf"], []⟩ ⟨["bug", "perf"], []⟩ ⟨["bug"], []⟩ (by decide) (by decide)

/-- A row of the work-item (pull request) table, indexed by `node_id`.
Only the columns the mining core reads are modelled. -/
structure PRRow where
  node_id : String
  repository_full_name : String
  user_login : String
  merged_by_login : Option String
  created_at : Option Nat
  updated_at : Option Nat
  closed_at : Option Nat
  merged_at : Option Nat
deriving DecidableEq

/-- A row of the per-PR release-mapping table, indexed by the PR `node_id`. -/
structure ReleaseRow where
  pr : String
  published_at : Option Nat
  author : Option String
deriving DecidableEq

/-- A row of the PR commits table (`(pull_request_node_id, node_id)` index). -/
structure CommitRow where
  pr : String
  authored_date : Option Nat
  committed_date : Option Nat
  author_login : Option String
  committer_login : Option String
deriving DecidableEq

/-- A row of the PR reviews table. -/
structure ReviewRow where
  pr : String
  user_id : Nat
  user_login : String
  submitted_at : Option Nat
  state : String
  created_at : Option Nat
deriving DecidableEq

/-- A row of the PR review comments table. -/
structure ReviewCommentRow where
  pr : String
  user_login : String
  created_at : Option Nat
deriving DecidableEq

/-- A row of the PR review requests table. -/
structure ReviewRequestRow where
  pr : String
  created_at : Option Nat
deriving DecidableEq

/-- A row of the PR issue comments table. -/
structure CommentRow where
  pr : String
  user_login : String
  created_at : Option Nat
deriving DecidableEq

/-- A row of the PR labels table. -/
structure LabelRow where
  pr : String
  name : String
deriving DecidableEq

/-- A row of the PR-to-JIRA-issue table (issue labels are pre-lowercased at
fetch time by `fetch_jira`, components already folded in). -/
structure JiraRow where
  pr : String
  labels : List String
  epic : Option String
  issue_type : String
  created : Option Nat
  updated : Option Nat
  resolved : Option Nat
deriving DecidableEq

/-- `PRDataFrames`: the bundle of dataframes with all the PR data, in the
field order of the Python dataclass. -/
structure PRDataFrames where
  prs : List PRRow
  releases : List ReleaseRow
  commits : List CommitRow
  jiras : List JiraRow
  reviews : List ReviewRow
  review_comments : List ReviewCommentRow
  review_requests : List ReviewRequestRow
  comments : List CommentRow
  labels : List LabelRow
deriving DecidableEq

/-- `PullRequestMiner._drop`: remove the given PR node ids from every table
(first index level for the sub-tables). -/
def dropDfs (dfs : PRDataFrames) (ids : List String) : PRDataFrames where
  prs := dfs.prs.filter (fun r => !ids.contains r.node_id)
  releases := dfs.releases.filter (fun r => !ids.contains r.pr)
  commits := dfs.commits.filter (fun r => !ids.contains r.pr)
  jiras := dfs.jiras.filter (fun r => !ids.contains r.pr)
  reviews := dfs.reviews.filter (fun r => !ids.contains r.pr)
  review_comments := dfs.review_comments.filter (fun r => !ids.contains r.pr)
  review_requests := dfs.review_requests.filter (fun r => !ids.contains r.pr)
  comments := dfs.comments.filter (fun r => !ids.contains r.pr)
  labels := dfs.labels.filter (fun r => !ids.contains r.pr)

/-- One timestamp cell of `PullRequestMiner._truncate_timestamps`:
`df.loc[df[col] > upto, col] = pd.NaT`. -/
def truncTS (upto : Nat) (v : Option Nat) : Option Nat :=
  match v with
  | some x => if upto < x then none else some x
  | none => none

/-- `_truncate_timestamps` applied to the work-item table. -/
def truncPRRow (upto : Nat) (r : PRRow) : PRRow :=
  { r with created_at := truncTS upto r.created_at,
           updated_at := truncTS upto r.updated_at,
           closed_at := truncTS upto r.closed_at,
           merged_at := truncTS upto r.merged_at }

/-- `_truncate_timestamps` applied to the release table. -/
def truncReleaseRow (upto : Nat) (r : ReleaseRow) : ReleaseRow :=
  { r with published_at := truncTS upto r.published_at }

/-- `_truncate_timestamps` applied to the commits table. -/
def truncCommitRow (upto : Nat) (r : CommitRow) : CommitRow :=
  { r with authored_date := truncTS upto r.authored_date,
           committed_date := truncTS upto r.committed_date }

/-- `_truncate_timestamps` applied to the reviews table. -/
def truncReviewRow (upto : Nat) (r : ReviewRow) : ReviewRow :=
  { r with submitted_at := truncTS upto r.submitted_at,
           created_at := truncTS upto r.created_at }

/-- `_truncate_timestamps` applied to the review comments table. -/
def truncReviewCommentRow (upto : Nat) (r : ReviewCommentRow) : ReviewCommentRow :=
  { r with created_at := truncTS upto r.created_at }

/-- `_truncate_timestamps` applied to the review requests table. -/
def truncReviewRequestRow (upto : Nat) (r : ReviewRequestRow) : ReviewRequestRow :=
  { r with created_at := truncTS upto r.created_at }

/-- `_truncate_timestamps` applied to the issue comments table. -/
def truncCommentRow (upto : Nat) (r : CommentRow) : CommentRow :=
  { r with created_at := truncTS upto r.created_at }

/-- `_truncate_timestamps` applied to the JIRA table. -/
def truncJiraRow (upto : Nat) (r : JiraRow) : JiraRow :=
  { r with created := truncTS upto r.created,
           updated := truncTS upto r.updated,
           resolved := truncTS upto r.resolved }

/-- The `for df in dfs: cls._truncate_timestamps(df, time_to)` loop of
`PullRequestMiner.mine`. -/
def truncateTimestampsDfs (dfs : PRDataFrames) (upto : Nat) : PRDataFrames where
  prs := dfs.prs.map (truncPRRow upto)
  releases := dfs.releases.map (truncReleaseRow upto)
  commits := dfs.commits.map (truncCommitRow upto)
  jiras := dfs.jiras.map (truncJiraRow upto)
  reviews := dfs.reviews.map (truncReviewRow upto)
  review_comments := dfs.review_comments.map (truncReviewCommentRow upto)
  review_requests := dfs.review_requests.map (truncReviewRequestRow upto)
  comments := dfs.comments.map (truncCommentRow upto)
  labels := dfs.labels

/-- `PullRequestMiner._truncate_prs`: the union of node ids released before
`time_from`, closed but not merged before `time_from`, or created at or after
`time_to`. -/
def toRemovePrs (dfs : PRDataFrames) (time_from time_to : Nat) : List String :=
  (dfs.releases.filter (fun r => optLt r.published_at time_from)).map (fun r => r.pr)
  ++ (dfs.prs.filter
        (fun p => optLt p.closed_at time_from && p.merged_at.isNone)).map (fun p => p.node_id)
  ++ (dfs.prs.filter (fun p => optGe p.created_at time_to)).map (fun p => p.node_id)

/-- `PullRequestMiner._truncate_prs`: drop the out-of-window node ids from
every table. -/
def truncatePrs (dfs : PRDataFrames) (time_from time_to : Nat) : PRDataFrames :=
  dropDfs dfs (toRemovePrs dfs time_from time_to)

/-- The tail of `PullRequestMiner.mine` (after `_mine` returns): apply the
precise-window pruning, then null out post-horizon timestamps when
`truncate` is set. -/
def minePost (dfs : PRDataFrames) (time_from time_to : Nat) (truncate : Bool) : PRDataFrames :=
  let dfs := truncatePrs dfs time_from time_to
  if truncate then truncateTimestampsDfs dfs time_to else dfs

/-- A timestamp cell respects the horizon: it is absent or at most `t`. -/
def tsOk (t : Nat) (v : Option Nat) : Prop :=
  ∀ x, v = some x → x ≤ t

/-- The "no future leakage" invariant: every timestamp value stored in any
column of any table of the snapshot is absent or at most `t`. -/
def noFutureLeak (dfs : PRDataFrames) (t : Nat) : Prop :=
  (∀ r ∈ dfs.prs, tsOk t r.created_at ∧ tsOk t r.updated_at ∧
      tsOk t r.closed_at ∧ tsOk t r.merged_at)
  ∧ (∀ r ∈ dfs.releases, tsOk t r.published_at)
  ∧ (∀ r ∈ dfs.commits, tsOk t r.authored_date ∧ tsOk t r.committed_date)
  ∧ (∀ r ∈ dfs.jiras, tsOk t r.created ∧ tsOk t r.updated ∧ tsOk t r.resolved)
  ∧ (∀ r ∈ dfs.reviews, tsOk t r.submitted_at ∧ tsOk t r.created_at)
  ∧ (∀ r ∈ dfs.review_comments, tsOk t r.created_at)
  ∧ (∀ r ∈ dfs.review_requests, tsOk t r.created_at)
  ∧ (∀ r ∈ dfs.comments, tsOk t r.created_at)

theorem truncTS_tsOk (t : Nat) (v : Option Nat) : tsOk t (truncTS t v) := by
  intro x hx
  cases v with
  | none => simp [truncTS] at hx
  | some y =>
    simp only [truncTS] at hx
    by_cases h : t < y
    · simp [h] at hx
    · simp [h] at hx
      omega

/-- C2: after the `mine` pipeline with `truncate` set, every timestamp stored
in any column of any table of the snapshot is absent (`NaT`) or at most
`time_to`: nothing after the horizon is visible. -/
theorem mine_truncate_no_future_leak (dfs : PRDataFrames) (time_from time_to : Nat) :
    noFutureLeak (minePost dfs time_from time_to true) time_to := by
  simp only [minePost, if_pos, truncateTimestampsDfs, noFutureLeak]
  refine ⟨?_, ?_, ?_, ?_, ?_, ?_, ?_, ?_⟩ <;>
    · intro r hr
      simp only [List.mem_map] at hr
      obtain ⟨r0, _, rfl⟩ := hr
      first
      | exact truncTS_tsOk _ _
      | exact ⟨truncTS_tsOk _ _, truncTS_tsOk _ _⟩
      | exact ⟨truncTS_tsOk _ _, truncTS_tsOk _ _, truncTS_tsOk _ _⟩
      | exact ⟨truncTS_tsOk _ _, truncTS_tsOk _ _, truncTS_tsOk _ _, truncTS_tsOk _ _⟩

/-- C7: `_truncate_prs` removes exactly the work items released before
`time_from`, those closed but not merged before `time_from`, and those created
at or after `time_to`; every other work item and all sub-table rows of
surviving work items remain. -/
theorem truncate_prs_exact (dfs : PRDataFrames) (tf tt : Nat) :
    (∀ x, (toRemovePrs dfs tf tt).contains x = true ↔
        ((∃ rel ∈ dfs.releases, rel.pr = x ∧ optLt rel.published_at tf = true)
         ∨ (∃ p ∈ dfs.prs, p.node_id = x ∧ optLt p.closed_at tf = true ∧ p.merged_at = none)
         ∨ (∃ p ∈ dfs.prs, p.node_id = x ∧ optGe p.created_at tt = true)))
    ∧ (∀ r, r ∈ (truncatePrs dfs tf tt).prs ↔
        (r ∈ dfs.prs ∧ (toRemovePrs dfs tf tt).contains r.node_id = false))
    ∧ (∀ r, r ∈ (truncatePrs dfs tf tt).releases ↔
        (r ∈ dfs.releases ∧ (toRemovePrs dfs tf tt).contains r.pr = false))
    ∧ (∀ r, r ∈ (truncatePrs dfs tf tt).commits ↔
        (r ∈ dfs.commits ∧ (toRemovePrs dfs tf tt).contains r.pr = false))
    ∧ (∀ r, r ∈ (truncatePrs dfs tf tt).jiras ↔
        (r ∈ dfs.jiras ∧ (toRemovePrs dfs tf tt).contains r.pr = false))
    ∧ (∀ r, r ∈ (truncatePrs dfs tf tt).reviews ↔
        (r ∈ dfs.reviews ∧ (toRemovePrs dfs tf tt).contains r.pr = false))
    ∧ (∀ r, r ∈ (truncatePrs dfs tf tt).review_comments ↔
        (r ∈ dfs.review_comments ∧ (toRemovePrs dfs tf tt).contains r.pr = false))
    ∧ (∀ r, r ∈ (truncatePrs dfs tf tt).review_requests ↔
        (r ∈ dfs.review_requests ∧ (toRemovePrs dfs tf tt).contains r.pr = false))
    ∧ (∀ r, r ∈ (truncatePrs dfs tf tt).comments ↔
        (r ∈ dfs.comments ∧ (toRemovePrs dfs tf tt).contains r.pr = false))
    ∧ (∀ r, r ∈ (truncatePrs dfs tf tt).labels ↔
        (r ∈ dfs.labels ∧ (toRemovePrs dfs tf tt).contains r.pr = false)) := by
  constructor
  · intro x
    simp only [toRemovePrs, list_contains_iff, List.mem_append, List.mem_map, List.mem_filter,
      Bool.and_eq_true, Option.isNone_iff_eq_none]
    aesop
  · refine ⟨?_, ?_, ?_, ?_, ?_, ?_, ?_, ?_, ?_⟩ <;>
      · intro r
        simp [truncatePrs, dropDfs, List.mem_filter]

/-- The in-place sub-table cutoff performed by `_find_drop_by_participants`
when `time_to` is not `None`: the commits, reviews, review comments, review
requests and issue comments tables are replaced by their rows dated strictly
before the cutoff. -/
def cutoffSubTables (dfs : PRDataFrames) (t : Nat) : PRDataFrames :=
  { dfs with
    commits := dfs.commits.filter (fun r => optLt r.committed_date t),
    reviews := dfs.reviews.filter (fun r => optLt r.created_at t),
    review_comments := dfs.review_comments.filter (fun r => optLt r.created_at t),
    review_requests := dfs.review_requests.filter (fun r => optLt r.created_at t),
    comments := dfs.comments.filter (fun r => optLt r.created_at t) }

/-- The union of per-role "passed" id sets of `_find_drop_by_participants`
(author and merger from the work-item table, releaser from the release table,
reviewer with self-review excluded via the left join on the PR author,
commenter, commit author and commit committer). -/
def participantsPassed (dfs : PRDataFrames) (ps : Participants) (cut : Option Nat) :
    List String :=
  let authors := participantsGet ps .AUTHOR
  let mergers := participantsGet ps .MERGER
  let releasers := participantsGet ps .RELEASER
  let reviewers := participantsGet ps .REVIEWER
  let commenters := participantsGet ps .COMMENTER
  let commitAuthors := participantsGet ps .COMMIT_AUTHOR
  let commitCommitters := participantsGet ps .COMMIT_COMMITTER
  (if authors.isEmpty then [] else
    (dfs.prs.filter (fun r => authors.contains r.user_login)).map (fun r => r.node_id))
  ++ (if mergers.isEmpty then [] else
    (dfs.prs.filter (fun r => optIsIn r.merged_by_login mergers &&
        (match cut with
         | some t => optLt r.merged_at t
         | none => true))).map (fun r => r.node_id))
  ++ (if releasers.isEmpty then [] else
    (dfs.releases.filter (fun r => optIsIn r.author releasers &&
        (match cut with
         | some t => optLt r.published_at t
         | none => true))).map (fun r => r.pr))
  ++ (if reviewers.isEmpty then [] else
    (dfs.reviews.filter (fun r => reviewers.contains r.user_login &&
        (match dfs.prs.find? (fun p => p.node_id == r.pr) with
         | some p => r.user_login != p.user_login
         | none => true))).map (fun r => r.pr))
  ++ (if commenters.isEmpty then [] else
    (dfs.comments.filter (fun r => commenters.contains r.user_login)).map (fun r => r.pr))
  ++ (if commitAuthors.isEmpty then [] else
    (dfs.commits.filter (fun r => optIsIn r.author_login commitAuthors)).map (fun r => r.pr))
  ++ (if commitCommitters.isEmpty then [] else
    (dfs.commits.filter (fun r => optIsIn r.committer_login commitCommitters)).map
      (fun r => r.pr))

/-- `PullRequestMiner._find_drop_by_participants`.  The returned pair is the
drop index together with the dataframes as left behind by the call (the
Python function mutates `dfs` in place when `time_to` is not `None`).
The Python raises `IndexError` when the map is non-empty but every requested
role set is empty (`passed` stays `[]`); that degenerate call is modelled as
an empty union, i.e. "drop everything". -/
def findDropByParticipants (dfs : PRDataFrames) (ps : Participants) (cut : Option Nat) :
    List String × PRDataFrames :=
  if ps.isEmpty then ([], dfs)
  else
    let dfs2 := match cut with
      | some t => cutoffSubTables dfs t
      | none => dfs
    let passed := participantsPassed dfs2 ps cut
    ((dfs2.prs.map (fun r => r.node_id)).filter (fun x => !passed.contains x), dfs2)

/-- Python `str.lower`, modelled character-wise (the builtin `String.toLower`
does not reduce in the kernel). -/
def lowerStr (s : String) : String :=
  ⟨s.data.map Char.toLower⟩

/-- Auxiliary for `splitComma`: split a character list at commas. -/
def splitCommaChars : List Char → List Char → List String
  | [], acc => [⟨acc.reverse⟩]
  | c :: rest, acc =>
    if c = ',' then ⟨acc.reverse⟩ :: splitCommaChars rest []
    else splitCommaChars rest (c :: acc)

/-- Python `str.split(",")`, modelled character-wise. -/
def splitComma (s : String) : List String :=
  splitCommaChars s.data []

/-- Modelled from the spec: `LabelFilter.split` (referenced by the miner but
absent from the sources) splits an include set into singleton labels and
comma-joined AND-groups. -/
def splitLabels (ls : List String) : List String × List (List String) :=
  (ls.filter (fun s => !(s.data.contains ',')),
   (ls.filter (fun s => s.data.contains ',')).map splitComma)

/-- One AND-group pass of `_find_left_by_labels`: start from the whole label
index and intersect with the ids carrying each label of the group. -/
def groupPass (rows : List (String × String)) (allIds : List String) (g : List String) :
    List String :=
  g.foldl (fun passed label =>
    passed.filter (fun x => ((rows.filter (fun r => r.2 == label)).map Prod.fst).contains x))
    allIds

/-- `PullRequestMiner._find_left_by_labels` over `(id, lowercased name)` label
rows: ids passing the include singletons / AND-groups, intersected with the
ids not carrying an excluded label. -/
def findLeftByLabels (rows : List (String × String)) (f : LabelFilter) : List String :=
  let allIds := rows.map Prod.fst
  let leftInclude :=
    if f.incl.isEmpty then [] else
      let sm := splitLabels f.incl
      sm.2.foldl (fun acc g => acc ++ groupPass rows allIds g)
        ((rows.filter (fun r => sm.1.contains r.2)).map Prod.fst)
  let leftExclude :=
    if f.excl.isEmpty then [] else
      allIds.filter (fun x =>
        !((rows.filter (fun r => f.excl.contains r.2)).map Prod.fst).contains x)
  if !f.incl.isEmpty then
    if !f.excl.isEmpty then leftInclude.filter (fun x => leftExclude.contains x)
    else leftInclude
  else leftExclude

/-- `PullRequestMiner._find_drop_by_labels`: lowercase the label names, compute
the surviving ids and drop the rest of the work-item index. -/
def findDropByLabels (dfs : PRDataFrames) (f : LabelFilter) : List String :=
  if !f.nonEmpty then []
  else
    let rows := dfs.labels.map (fun r => (r.pr, lowerStr r.name))
    let left := findLeftByLabels rows f
    (dfs.prs.map (fun r => r.node_id)).filter (fun x => !left.contains x)

/-- `PullRequestMiner._find_drop_by_jira`: intersection of the label, epic and
issue-type passes over the JIRA join table, dropped against the work-item
index.  The JIRA labels are already lowercased at fetch time. -/
def findDropByJira (dfs : PRDataFrames) (jira : JIRAFilter) : List String :=
  if !jira.nonEmpty then []
  else
    let jiraRows := dfs.jiras.flatMap (fun j => j.labels.map (fun l => (j.pr, l)))
    let pieces :=
      (if jira.labels.nonEmpty then [findLeftByLabels jiraRows jira.labels] else [])
      ++ (if !jira.epics.isEmpty then
            [(dfs.jiras.filter (fun j => optIsIn j.epic jira.epics)).map (fun j => j.pr)]
          else [])
      ++ (if !jira.issue_types.isEmpty then
            [(dfs.jiras.filter (fun j =>
                jira.issue_types.contains (lowerStr j.issue_type))).map (fun j => j.pr)]
          else [])
    let left := match pieces with
      | p :: rest => rest.foldl (fun (acc q : List String) => acc.filter (fun x => q.contains x)) p
      | [] => []
    (dfs.prs.map (fun r => r.node_id)).filter (fun x => !left.contains x)

/-- `PullRequestMiner._find_drop_by_inactive`: ids with no event timestamp
inside `[time_from, time_to]` (inclusive) among creation, closure, commit,
review request, review, comment and release. -/
def findDropByInactive (dfs : PRDataFrames) (time_from time_to : Nat) : List String :=
  let activities : List (String × Option Nat) :=
    dfs.prs.map (fun r => (r.node_id, r.created_at))
    ++ dfs.prs.map (fun r => (r.node_id, r.closed_at))
    ++ dfs.commits.map (fun r => (r.pr, r.committed_date))
    ++ dfs.review_requests.map (fun r => (r.pr, r.created_at))
    ++ dfs.reviews.map (fun r => (r.pr, r.created_at))
    ++ dfs.comments.map (fun r => (r.pr, r.created_at))
    ++ dfs.releases.map (fun r => (r.pr, r.published_at))
  let active := (activities.filter (fun a => optBetween a.2 time_from time_to)).map Prod.fst
  (dfs.prs.map (fun r => r.node_id)).filter (fun x => !active.contains x)

/-- C8 (amended): the label, JIRA and inactivity filter functions are pure over
the snapshot; `_find_drop_by_participants` is pure when no timestamp cutoff is
supplied (and when the participants map is empty), but with a cutoff it
replaces the commits, reviews, review comments, review requests and issue
comments tables with the rows dated strictly before the cutoff, leaving the
work-item, release, JIRA and label tables unchanged. -/
theorem filter_functions_frame (dfs : PRDataFrames) (ps : Participants) (t : Nat)
    (hps : ps.isEmpty = false) :
    (findDropByParticipants dfs ps none).2 = dfs
    ∧ (findDropByParticipants dfs ps (some t)).2 = cutoffSubTables dfs t
    ∧ (cutoffSubTables dfs t).prs = dfs.prs
    ∧ (cutoffSubTables dfs t).releases = dfs.releases
    ∧ (cutoffSubTables dfs t).jiras = dfs.jiras
    ∧ (cutoffSubTables dfs t).labels = dfs.labels
    ∧ (findDropByParticipants dfs ([] : Participants) (some t)).2 = dfs := by
  refine ⟨?_, ?_, rfl, rfl, rfl, rfl, rfl⟩ <;> simp [findDropByParticipants, hps]

/-- A snapshot with one work item authored by `u` and one commit dated 7,
after the cutoff 5. -/
def dfsC8 : PRDataFrames where
  prs := [{ node_id := "p", repository_full_name := "org/r", user_login := "u",
            merged_by_login := none, created_at := some 1, updated_at := some 1,
            closed_at := none, merged_at := none }]
  releases := []
  commits := [{ pr := "p", authored_date := some 7, committed_date := some 7,
                author_login := some "u", committer_login := some "u" }]
  jiras := []
  reviews := []
  review_comments := []
  review_requests := []
  comments := []
  labels := []

/-- C8 counterexample: with a timestamp cutoff, `_find_drop_by_participants`
does not leave every table unchanged — the commit dated after the cutoff is
removed from the commits table. -/
theorem find_drop_by_participants_not_pure :
    (findDropByParticipants dfsC8 [(ParticipationKind.AUTHOR, ["u"])] (some 5)).2 ≠ dfsC8 := by
  decide

theorem filter_functions_frame_witness :
    (findDropByParticipants dfsC8 [(ParticipationKind.AUTHOR, ["u"])] none).2 = dfsC8
    ∧ (findDropByParticipants dfsC8 [(ParticipationKind.AUTHOR, ["u"])] (some 5)).2
        = cutoffSubTables dfsC8 5
    ∧ (cutoffSubTables dfsC8 5).prs = dfsC8.prs
    ∧ (cutoffSubTables dfsC8 5).releases = dfsC8.releases
    ∧ (cutoffSubTables dfsC8 5).jiras = dfsC8.jiras
    ∧ (cutoffSubTables dfsC8 5).labels = dfsC8.labels
    ∧ (findDropByParticipants dfsC8 ([] : Participants) (some 5)).2 = dfsC8 :=
  filter_functions_frame dfsC8 [(ParticipationKind.AUTHOR, ["u"])] 5 (by decide)

theorem mem_foldl_filter {α β : Type} (p : β → α → Bool) (gs : List β) (init : List α)
    (x : α) :
    x ∈ gs.foldl (fun acc b => acc.filter (p b)) init ↔
      x ∈ init ∧ ∀ b ∈ gs, p b x = true := by
  induction gs generalizing init with
  | nil => simp
  | cons b bs ih =>
    simp only [List.foldl_cons, ih, List.mem_filter, List.forall_mem_cons]
    tauto

theorem mem_foldl_append {α β : Type} (f : β → List α) (gs : List β) (init : List α)
    (x : α) :
    x ∈ gs.foldl (fun acc b => acc ++ f b) init ↔ x ∈ init ∨ ∃ b ∈ gs, x ∈ f b := by
  induction gs generalizing init with
  | nil => simp
  | cons b bs ih =>
    simp only [List.foldl_cons, ih, List.mem_append, List.exists_mem_cons_iff]
    tauto

theorem contains_map_fst_filter (rows : List (String × String)) (q : String × String → Bool)
    (x : String) :
    ((rows.filter q).map Prod.fst).contains x = true ↔
      ∃ r ∈ rows, r.1 = x ∧ q r = true := by
  simp only [list_contains_iff, List.mem_map, List.mem_filter]
  aesop

theorem mem_groupPass (rows : List (String × String)) (allIds : List String)
    (g : List String) (x : String) :
    x ∈ groupPass rows allIds g ↔
      x ∈ allIds ∧ ∀ l ∈ g, ∃ r ∈ rows, r.1 = x ∧ r.2 = l := by
  unfold groupPass
  rw [mem_foldl_filter]
  refine and_congr_right fun _ => forall₂_congr fun l _ => ?_
  rw [contains_map_fst_filter rows (fun r => r.2 == l) x]
  simp only [beq_iff_eq]

theorem mem_map_fst_filter (rows : List (String × String)) (q : String × String → Bool)
    (x : String) :
    x ∈ (rows.filter q).map Prod.fst ↔ ∃ r ∈ rows, r.1 = x ∧ q r = true := by
  simp only [List.mem_map, List.mem_filter]
  aesop

theorem mem_findLeftByLabels (rows : List (String × String)) (f : LabelFilter) (x : String) :
    x ∈ findLeftByLabels rows f ↔
      (if f.incl.isEmpty then
        (¬ f.excl.isEmpty = true ∧ x ∈ rows.map Prod.fst ∧
           ¬ ∃ r ∈ rows, r.1 = x ∧ f.excl.contains r.2 = true)
      else
        (((∃ r ∈ rows, r.1 = x ∧ (splitLabels f.incl).1.contains r.2 = true)
          ∨ ∃ g ∈ (splitLabels f.incl).2,
              x ∈ rows.map Prod.fst ∧ ∀ l ∈ g, ∃ r ∈ rows, r.1 = x ∧ r.2 = l)
         ∧ ¬ ∃ r ∈ rows, r.1 = x ∧ f.excl.contains r.2 = true)) := by
  have hexc : ∀ hne : f.excl.isEmpty = false,
      (x ∈ (rows.map Prod.fst).filter (fun y =>
        !((rows.filter (fun r => f.excl.contains r.2)).map Prod.fst).contains y) ↔
       (x ∈ rows.map Prod.fst ∧ ¬ ∃ r ∈ rows, r.1 = x ∧ f.excl.contains r.2 = true)) := by
    intro _
    rw [List.mem_filter]
    refine and_congr_right fun _ => ?_
    rw [Bool.not_eq_true', ← Bool.not_eq_true,
      contains_map_fst_filter rows (fun r => f.excl.contains r.2) x]
  have hinc : x ∈ ((splitLabels f.incl).2.foldl
        (fun acc g => acc ++ groupPass rows (rows.map Prod.fst) g)
        ((rows.filter (fun r => (splitLabels f.incl).1.contains r.2)).map Prod.fst)) ↔
      ((∃ r ∈ rows, r.1 = x ∧ (splitLabels f.incl).1.contains r.2 = true)
       ∨ ∃ g ∈ (splitLabels f.incl).2,
           x ∈ rows.map Prod.fst ∧ ∀ l ∈ g, ∃ r ∈ rows, r.1 = x ∧ r.2 = l) := by
    rw [mem_foldl_append,
      mem_map_fst_filter rows (fun r => (splitLabels f.incl).1.contains r.2) x]
    refine or_congr Iff.rfl (exists_congr fun g => and_congr_right fun _ => ?_)
    exact mem_groupPass rows (rows.map Prod.fst) g x
  have hsub : ∀ hx : x ∈ ((splitLabels f.incl).2.foldl
        (fun acc g => acc ++ groupPass rows (rows.map Prod.fst) g)
        ((rows.filter (fun r => (splitLabels f.incl).1.contains r.2)).map Prod.fst)),
      x ∈ rows.map Prod.fst := by
    intro hx
    rcases hinc.mp hx with h | ⟨g, _, hall, _⟩
    · obtain ⟨r, hr, rfl, _⟩ := h
      exact List.mem_map_of_mem Prod.fst hr
    · exact hall
  by_cases hi : f.incl.isEmpty
  · by_cases he : f.excl.isEmpty
    · simp [findLeftByLabels, hi, he]
    · simp only [findLeftByLabels, hi, Bool.not_true, Bool.false_eq_true, if_false, he,
        Bool.not_false, if_true, if_pos]
      simpa [he] using hexc (by simpa using he)
  · rw [if_neg (by simpa using hi)]
    by_cases he : f.excl.isEmpty
    · have htriv : ¬ ∃ r ∈ rows, r.1 = x ∧ f.excl.contains r.2 = true := by
        rintro ⟨r, _, _, hc⟩
        rw [List.isEmpty_iff] at he
        simp [he] at hc
      simp only [findLeftByLabels, hi, he, Bool.not_false, Bool.not_true, Bool.false_eq_true,
        if_false, if_true]
      rw [hinc]
      exact (and_iff_left htriv).symm
    · simp only [findLeftByLabels, hi, he, Bool.not_false, Bool.not_true, Bool.false_eq_true,
        if_false, if_true]
      rw [List.mem_filter, list_contains_iff, hinc]
      have he2 := hexc (by simpa using he)
      rw [he2]
      constructor
      · rintro ⟨h1, _, h3⟩
        exact ⟨h1, h3⟩
      · rintro ⟨h1, h3⟩
        refine ⟨h1, ?_, h3⟩
        exact hsub (hinc.mpr h1)

/-- The keep condition of the claim for a non-empty include set, over the raw label
table (matching is against lowercased label names): the item carries a
singleton include label or is labeled and carries every label of some
AND-group, and carries no excluded label. -/
def keptByLabelsInclude (labelsTab : List LabelRow) (f : LabelFilter) (x : String) : Prop :=
  ((∃ r ∈ labelsTab, r.pr = x ∧ (splitLabels f.incl).1.contains (lowerStr r.name) = true)
    ∨ ∃ g ∈ (splitLabels f.incl).2,
        (∃ r ∈ labelsTab, r.pr = x) ∧
        ∀ l ∈ g, ∃ r ∈ labelsTab, r.pr = x ∧ lowerStr r.name = l)
  ∧ ¬ ∃ r ∈ labelsTab, r.pr = x ∧ f.excl.contains (lowerStr r.name) = true

/-- The keep condition actually implemented for an empty include set: the item
carries at least one label and no excluded label. -/
def keptByLabelsExcludeOnly (labelsTab : List LabelRow) (f : LabelFilter) (x : String) : Prop :=
  (∃ r ∈ labelsTab, r.pr = x) ∧
  ¬ ∃ r ∈ labelsTab, r.pr = x ∧ f.excl.contains (lowerStr r.name) = true

theorem labels_rows_exists_transfer (labelsTab : List LabelRow) (q : String → Bool)
    (x : String) :
    (∃ r ∈ labelsTab.map (fun r => (r.pr, lowerStr r.name)), r.1 = x ∧ q r.2 = true) ↔
      ∃ r ∈ labelsTab, r.pr = x ∧ q (lowerStr r.name) = true := by
  simp only [List.mem_map]
  aesop

theorem labels_rows_fst_transfer (labelsTab : List LabelRow) (x : String) :
    (x ∈ (labelsTab.map (fun r => (r.pr, lowerStr r.name))).map Prod.fst) ↔
      ∃ r ∈ labelsTab, r.pr = x := by
  simp only [List.map_map, List.mem_map, Function.comp]

theorem labels_rows_lab_transfer (labelsTab : List LabelRow) (l : String) (x : String) :
    (∃ r ∈ labelsTab.map (fun r => (r.pr, lowerStr r.name)), r.1 = x ∧ r.2 = l) ↔
      ∃ r ∈ labelsTab, r.pr = x ∧ lowerStr r.name = l := by
  simp only [List.mem_map]
  aesop

/-- C9 (amended): for a filter with a non-empty include set,
`_find_drop_by_labels` drops exactly the work items that neither carry a
singleton include label nor (while carrying at least one label) all labels of
some comma-joined AND-group, or that carry an excluded label — matching
against lowercased label names.  For an empty include set it keeps exactly the
items that carry at least one label and no excluded label (so unlabeled items
are dropped). -/
theorem find_drop_by_labels_exact (dfs : PRDataFrames) (f : LabelFilter) (x : String) :
    (f.incl ≠ [] →
      (x ∈ findDropByLabels dfs f ↔
        x ∈ dfs.prs.map (fun r => r.node_id) ∧ ¬ keptByLabelsInclude dfs.labels f x))
    ∧ (f.incl = [] → f.excl ≠ [] →
      (x ∈ findDropByLabels dfs f ↔
        x ∈ dfs.prs.map (fun r => r.node_id) ∧ ¬ keptByLabelsExcludeOnly dfs.labels f x)) := by
  constructor
  · intro hincl
    have hi : f.incl.isEmpty = false := by simpa [List.isEmpty_iff] using hincl
    have hne : (!f.nonEmpty) = false := by
      simp [LabelFilter.nonEmpty, hi]
    rw [show findDropByLabels dfs f =
        (dfs.prs.map (fun r => r.node_id)).filter (fun y =>
          !(findLeftByLabels (dfs.labels.map (fun r => (r.pr, lowerStr r.name))) f).contains y)
      from by simp [findDropByLabels, hne]]
    rw [List.mem_filter]
    refine and_congr_right fun _ => ?_
    rw [Bool.not_eq_true', ← Bool.not_eq_true, list_contains_iff, mem_findLeftByLabels]
    rw [if_neg (by simp [hi])]
    unfold keptByLabelsInclude
    rw [labels_rows_exists_transfer dfs.labels
        (fun y => (splitLabels f.incl).1.contains y) x,
      labels_rows_exists_transfer dfs.labels (fun y => f.excl.contains y) x,
      labels_rows_fst_transfer]
    constructor
    · intro h
      refine fun hk => h ⟨?_, hk.2⟩
      rcases hk.1 with h1 | ⟨g, hg, hlabeled, hall⟩
      · exact Or.inl h1
      · refine Or.inr ⟨g, hg, hlabeled, fun l hl => ?_⟩
        exact (labels_rows_lab_transfer dfs.labels l x).mpr (hall l hl)
    · intro h
      refine fun hk => h ⟨?_, hk.2⟩
      rcases hk.1 with h1 | ⟨g, hg, hlabeled, hall⟩
      · exact Or.inl h1
      · refine Or.inr ⟨g, hg, hlabeled, fun l hl => ?_⟩
        exact (labels_rows_lab_transfer dfs.labels l x).mp (hall l hl)
  · intro hincl hexcl
    have hi : f.incl.isEmpty = true := by simp [hincl]
    have he : f.excl.isEmpty = false := by simpa [List.isEmpty_iff] using hexcl
    have hne : (!f.nonEmpty) = false := by
      simp [LabelFilter.nonEmpty, he]
    rw [show findDropByLabels dfs f =
        (dfs.prs.map (fun r => r.node_id)).filter (fun y =>
          !(findLeftByLabels (dfs.labels.map (fun r => (r.pr, lowerStr r.name))) f).contains y)
      from by simp [findDropByLabels, hne]]
    rw [List.mem_filter]
    refine and_congr_right fun _ => ?_
    rw [Bool.not_eq_true', ← Bool.not_eq_true, list_contains_iff, mem_findLeftByLabels]
    rw [if_pos hi]
    unfold keptByLabelsExcludeOnly
    rw [labels_rows_exists_transfer dfs.labels (fun y => f.excl.contains y) x,
      labels_rows_fst_transfer]
    constructor
    · intro h hk
      exact h ⟨by simp [he], hk.1, hk.2⟩
    · intro h hk
      exact h ⟨hk.2.1, hk.2.2⟩

/-- The claim read literally, as a drop-set function: keep exactly the items
carrying a singleton include label or all labels of an AND-group and no
excluded label. -/
def claimLabelKeep (labelsTab : List LabelRow) (f : LabelFilter) (x : String) : Bool :=
  let lowNames := (labelsTab.filter (fun r => r.pr == x)).map (fun r => lowerStr r.name)
  ((splitLabels f.incl).1.any (fun s => lowNames.contains s)
    || (splitLabels f.incl).2.any (fun g => g.all (fun l => lowNames.contains l)))
  && !(f.excl.any (fun e => lowNames.contains e))

/-- The drop set asserted by the claim: everything not kept by `claimLabelKeep`. -/
def claimLabelDrop (dfs : PRDataFrames) (f : LabelFilter) : List String :=
  (dfs.prs.map (fun r => r.node_id)).filter (fun x => !claimLabelKeep dfs.labels f x)

/-- A snapshot with one work item carrying the single label "a". -/
def dfsC9 : PRDataFrames where
  prs := [{ node_id := "p", repository_full_name := "org/r", user_login := "u",
            merged_by_login := none, created_at := some 1, updated_at := some 1,
            closed_at := none, merged_at := none }]
  releases := []
  commits := []
  jiras := []
  reviews := []
  review_comments := []
  review_requests := []
  comments := []
  labels := [{ pr := "p", name := "a" }]

/-- C9 counterexample: for the non-empty filter `{include: {}, exclude: {"x"}}`
the code keeps the labeled item "p" (it carries no excluded label yet also no
include label), while the claim as stated drops every item, "p" included. -/
theorem find_drop_by_labels_counterexample :
    findDropByLabels dfsC9 ⟨[], ["x"]⟩ = []
    ∧ claimLabelDrop dfsC9 ⟨[], ["x"]⟩ = ["p"]
    ∧ LabelFilter.nonEmpty ⟨[], ["x"]⟩ = true := by
  decide

theorem find_drop_by_labels_exact_witness :
    ("p" ∈ findDropByLabels dfsC9 ⟨["bug"], []⟩ ↔
      "p" ∈ dfsC9.prs.map (fun r => r.node_id) ∧
        ¬ keptByLabelsInclude dfsC9.labels ⟨["bug"], []⟩ "p")
    ∧ ("p" ∈ findDropByLabels dfsC9 ⟨[], ["x"]⟩ ↔
      "p" ∈ dfsC9.prs.map (fun r => r.node_id) ∧
        ¬ keptByLabelsExcludeOnly dfsC9.labels ⟨[], ["x"]⟩ "p") :=
  ⟨(find_drop_by_labels_exact dfsC9 ⟨["bug"], []⟩ "p").1 (by decide),
   (find_drop_by_labels_exact dfsC9 ⟨[], ["x"]⟩ "p").2 rfl (by decide)⟩

/-- Outcome of `client.get(cache_key)` inside `wrapped_cached`: a payload, a
miss, an `aiomcache.exceptions.ClientException` (the only class caught), or
any other exception. -/
inductive GetOutcome where
  | found (b : Nat)
  | missing
  | clientError
  | otherError
deriving DecidableEq

/-- Outcome of `client.touch` (not wrapped in any try/except). -/
inductive TouchOutcome where
  | ok
  | raised
deriving DecidableEq

/-- Outcome of `client.set`: success, `ClientException` (caught), or any other
exception. -/
inductive SetOutcome where
  | ok
  | clientError
  | otherError
deriving DecidableEq

/-- The cache client behaviour observed by one `wrapped_cached` call. -/
structure CacheBehavior where
  getOutcome : GetOutcome
  touchOutcome : TouchOutcome
  setOutcome : SetOutcome
deriving DecidableEq

instance {ε α : Type} [DecidableEq ε] [DecidableEq α] : DecidableEq (Except ε α) := fun x y =>
  match x, y with
  | .ok a, .ok b => if h : a = b then isTrue (by rw [h]) else isFalse (by simp [h])
  | .error a, .error b => if h : a = b then isTrue (by rw [h]) else isFalse (by simp [h])
  | .ok _, .error _ => isFalse (by simp)
  | .error _, .ok _ => isFalse (by simp)

/-- Result of one `wrapped_cached` call: either a propagated exception or a
value, plus whether the wrapped function was invoked. -/
structure CachedCallResult where
  outcome : Except String Nat
  ranFunc : Bool
deriving DecidableEq

/-- `athenian.api.cache.wrapped_cached` (logging and metrics elided): the
`get` call catches only `ClientException` and degrades it to a miss; on a hit
the deserializer runs unprotected, then `touch` (when `refresh_on_access`)
runs unprotected; on a miss the wrapped function runs, the serializer runs
unprotected, and `set` catches only `ClientException`. -/
def wrappedCached (client : Option CacheBehavior)
    (deserialize : Nat → Except String Nat)
    (serialize : Nat → Except String Nat)
    (refresh_on_access : Bool)
    (fresh : Nat) : CachedCallResult :=
  match client with
  | none => ⟨.ok fresh, true⟩
  | some cb =>
    let buffer : Except String (Option Nat) :=
      match cb.getOutcome with
      | .found b => .ok (some b)
      | .missing => .ok none
      | .clientError => .ok none
      | .otherError => .error "client.get raised a non-ClientException"
    match buffer with
    | .error e => ⟨.error e, false⟩
    | .ok (some b) =>
      match deserialize b with
      | .error e => ⟨.error e, false⟩
      | .ok v =>
        if refresh_on_access then
          match cb.touchOutcome with
          | .ok => ⟨.ok v, false⟩
          | .raised => ⟨.error "client.touch raised", false⟩
        else ⟨.ok v, false⟩
    | .ok none =>
      match serialize fresh with
      | .error e => ⟨.error e, true⟩
      | .ok _ =>
        match cb.setOutcome with
        | .ok => ⟨.ok fresh, true⟩
        | .clientError => ⟨.ok fresh, true⟩
        | .otherError => ⟨.error "client.set raised a non-ClientException", true⟩

/-- C4 counterexample: a failing deserializer aborts the outer call — the
exception propagates and the wrapped function is never invoked, so the call
does not return the result of the underlying function. -/
theorem wrapped_cached_counterexample :
    wrappedCached (some ⟨.found 5, .ok, .ok⟩)
        (fun _ => .error "deserialize failed") (fun v => .ok v) false 7
      = ⟨.error "deserialize failed", false⟩
    ∧ (wrappedCached (some ⟨.found 5, .ok, .ok⟩)
        (fun _ => .error "deserialize failed") (fun v => .ok v) false 7).outcome
      ≠ .ok 7 := by
  constructor
  · rfl
  · intro h
    simp [wrappedCached] at h

/-- C4 (amended): only `aiomcache` `ClientException` from `get` and `set` is
absorbed — a `ClientException` from `get` degrades to a miss (the underlying
function runs and its result is returned), and a `ClientException` from `set`
only skips the store (the fresh result is still returned); with no client the
call passes through.  Exceptions from the deserializer, from `touch` and from
the serializer, and non-`ClientException` errors from `get`/`set`, propagate. -/
theorem wrapped_cached_error_handling (des ser desF serF : Nat → Except String Nat)
    (refresh : Bool) (fresh p b v : Nat) (eS eD : String)
    (tch : TouchOutcome) (st : SetOutcome)
    (hser : ser fresh = .ok p) (hdes : des b = .ok v)
    (hserF : serF fresh = .error eS) (hdesF : desF b = .error eD) :
    wrappedCached none des ser refresh fresh = ⟨.ok fresh, true⟩
    ∧ wrappedCached (some ⟨.clientError, tch, .ok⟩) des ser refresh fresh
        = ⟨.ok fresh, true⟩
    ∧ wrappedCached (some ⟨.missing, tch, .clientError⟩) des ser refresh fresh
        = ⟨.ok fresh, true⟩
    ∧ wrappedCached (some ⟨.found b, .ok, .ok⟩) des ser refresh fresh = ⟨.ok v, false⟩
    ∧ wrappedCached (some ⟨.found b, .raised, .ok⟩) des ser true fresh
        = ⟨.error "client.touch raised", false⟩
    ∧ wrappedCached (some ⟨.otherError, tch, .ok⟩) des ser refresh fresh
        = ⟨.error "client.get raised a non-ClientException", false⟩
    ∧ wrappedCached (some ⟨.missing, tch, st⟩) des serF refresh fresh
        = ⟨.error eS, true⟩
    ∧ wrappedCached (some ⟨.missing, tch, .otherError⟩) des ser refresh fresh
        = ⟨.error "client.set raised a non-ClientException", true⟩
    ∧ wrappedCached (some ⟨.found b, tch, st⟩) desF ser refresh fresh
        = ⟨.error eD, false⟩ := by
  refine ⟨rfl, ?_, ?_, ?_, ?_, rfl, ?_, ?_, ?_⟩
  · simp [wrappedCached, hser]
  · simp [wrappedCached, hser]
  · cases refresh <;> simp [wrappedCached, hdes]
  · simp [wrappedCached, hdes]
  · simp [wrappedCached, hserF]
  · simp [wrappedCached, hser]
  · simp [wrappedCached, hdesF]

theorem wrapped_cached_error_handling_witness :
    wrappedCached none (fun x => .ok x) (fun x => .ok x) false 7 = ⟨.ok 7, true⟩
    ∧ wrappedCached (some ⟨.clientError, .ok, .ok⟩) (fun x => .ok x) (fun x => .ok x) false 7
        = ⟨.ok 7, true⟩
    ∧ wrappedCached (some ⟨.missing, .ok, .clientError⟩) (fun x => .ok x) (fun x => .ok x)
        false 7 = ⟨.ok 7, true⟩
    ∧ wrappedCached (some ⟨.found 5, .ok, .ok⟩) (fun x => .ok x) (fun x => .ok x) false 7
        = ⟨.ok 5, false⟩
    ∧ wrappedCached (some ⟨.found 5, .raised, .ok⟩) (fun x => .ok x) (fun x => .ok x) true 7
        = ⟨.error "client.touch raised", false⟩
    ∧ wrappedCached (some ⟨.otherError, .ok, .ok⟩) (fun x => .ok x) (fun x => .ok x) false 7
        = ⟨.error "client.get raised a non-ClientException", false⟩
    ∧ wrappedCached (some ⟨.missing, .ok, .clientError⟩) (fun x => .ok x)
        (fun _ => .error "serialize failed") false 7
        = ⟨.error "serialize failed", true⟩
    ∧ wrappedCached (some ⟨.missing, .ok, .otherError⟩) (fun x => .ok x) (fun x => .ok x)
        false 7 = ⟨.error "client.set raised a non-ClientException", true⟩
    ∧ wrappedCached (some ⟨.found 5, .ok, .clientError⟩) (fun _ => .error "deserialize failed")
        (fun x => .ok x) false 7
        = ⟨.error "deserialize failed", false⟩ :=
  wrapped_cached_error_handling (fun x => .ok x) (fun x => .ok x)
    (fun _ => .error "deserialize failed") (fun _ => .error "serialize failed")
    false 7 7 5 5 "serialize failed" "deserialize failed" .ok .clientError rfl rfl rfl rfl

/-- The tuple cached by `PullRequestMiner._mine`:
`(dfs, facts, repositories, participants, labels, jira, matched_bys)`
(facts and matched_bys are opaque pass-through payloads here). -/
structure MineResult where
  dfs : PRDataFrames
  facts : List (String × Nat)
  repositories : List String
  participants : Participants
  labels : LabelFilter
  jira : JIRAFilter
  matched_bys : List (String × Nat)
deriving DecidableEq

/-- The arguments of a `_mine` call that `_postprocess_cached_prs` inspects. -/
structure MineRequest where
  date_to : Nat
  repositories : List String
  participants : Participants
  labels : LabelFilter
  jira : JIRAFilter
  pr_blacklist : List String
  truncate : Bool
deriving DecidableEq

/-- The cancellation condition of `_postprocess_cached_prs`:
`repositories - cached_repositories` non-empty, or incompatible participants,
labels or JIRA filter. -/
def postprocessCancelCond (cached : MineResult) (req : MineRequest) : Bool :=
  req.repositories.any (fun r => !cached.repositories.contains r)
  || !checkParticipantsCompatibility cached.participants req.participants
  || !cached.labels.compatible_with req.labels
  || !cached.jira.compatible_with req.jira

/-- The pruning branch of `_postprocess_cached_prs`: drop the blacklist, the
rows of repositories outside the request, and the ids found by the
participant, label and JIRA filter functions (the participants filter also
applies the sub-table cutoff when `truncate` is false). -/
def pruneCachedResult (cached : MineResult) (req : MineRequest) : MineResult :=
  let dfs := cached.dfs
  let repoMismatch := (dfs.prs.filter
    (fun r => !req.repositories.contains r.repository_full_name)).map (fun r => r.node_id)
  let cut := if req.truncate then none else some req.date_to
  let pp := findDropByParticipants dfs req.participants cut
  let toRemove := req.pr_blacklist ++ repoMismatch ++ pp.1
    ++ findDropByLabels pp.2 req.labels ++ findDropByJira pp.2 req.jira
  { cached with dfs := dropDfs pp.2 toRemove }

/-- `PullRequestMiner._postprocess_cached_prs`: cancel the cache hit when the
request is not narrower than the cached call, otherwise prune the cached
snapshot in place via the filter functions. -/
def postprocessCachedPrs (cached : MineResult) (req : MineRequest) : Option MineResult :=
  if postprocessCancelCond cached req then none
  else some (pruneCachedResult cached req)

/-- Outcome of one memoized call: the returned value, whether the underlying
fetch ran, and the cache entry left behind. -/
structure CachedPPOutcome where
  result : MineResult
  fetched : Bool
  stored : Option MineResult
deriving DecidableEq

/-- Modelled from the spec: the postprocess-capable `cached` wrapper (the
`postprocess=`/`CancelCache` interface imported by the miner but absent from
the sources): on a hit the postprocess hook may accept/narrow the deserialized
value (returned without invoking the wrapped function) or signal cancellation,
which falls through to a fresh fetch whose result is stored. -/
def cachedCallWithPostprocess (entry : Option MineResult)
    (postproc : MineResult → Option MineResult) (fetch : MineResult) : CachedPPOutcome :=
  match entry with
  | some v =>
    match postproc v with
    | some pruned => ⟨pruned, false, some v⟩
    | none => ⟨fetch, true, some fetch⟩
  | none => ⟨fetch, true, some fetch⟩

/-- The narrowing condition of the claim: requested repositories are a subset of
the cached ones and the participants, label and issue filters are each
compatible with the cached ones. -/
def narrowerRequest (cached : MineResult) (req : MineRequest) : Prop :=
  (∀ r ∈ req.repositories, r ∈ cached.repositories)
  ∧ checkParticipantsCompatibility cached.participants req.participants = true
  ∧ cached.labels.compatible_with req.labels = true
  ∧ cached.jira.compatible_with req.jira = true

instance (cached : MineResult) (req : MineRequest) :
    Decidable (narrowerRequest cached req) := by
  unfold narrowerRequest
  infer_instance

theorem postprocess_cancel_iff (cached : MineResult) (req : MineRequest) :
    postprocessCancelCond cached req = false ↔ narrowerRequest cached req := by
  unfold postprocessCancelCond narrowerRequest
  simp only [Bool.or_eq_false_iff, List.any_eq_false, Bool.not_eq_true',
    Bool.ne_false_iff, Bool.not_eq_false', list_contains_iff]
  tauto

/-- C1: on a warm cache entry, when the requested repositories are a subset of
the cached ones and the participants, label and issue filters are compatible,
the memoized snapshot miner returns the cached snapshot pruned by the filter
functions without running the underlying fetch and leaves the entry in place;
otherwise the hit is cancelled, the fresh fetch runs and its value is stored. -/
theorem cached_mine_postprocess (cached : MineResult) (req : MineRequest)
    (fetch : MineResult) :
    (narrowerRequest cached req →
      cachedCallWithPostprocess (some cached) (fun v => postprocessCachedPrs v req) fetch
        = ⟨pruneCachedResult cached req, false, some cached⟩)
    ∧ (¬ narrowerRequest cached req →
      cachedCallWithPostprocess (some cached) (fun v => postprocessCachedPrs v req) fetch
        = ⟨fetch, true, some fetch⟩) := by
  constructor
  · intro h
    have hc : postprocessCancelCond cached req = false := (postprocess_cancel_iff _ _).mpr h
    simp [cachedCallWithPostprocess, postprocessCachedPrs, hc]
  · intro h
    have hc : postprocessCancelCond cached req = true := by
      by_contra hfalse
      exact h ((postprocess_cancel_iff _ _).mp (by simpa using hfalse))
    simp [cachedCallWithPostprocess, postprocessCachedPrs, hc]

/-- A cached `_mine` result computed for repositories `{org/a, org/b}` with no
further filters. -/
def cachedC1 : MineResult where
  dfs := { prs := [{ node_id := "p1", repository_full_name := "org/a", user_login := "u",
                     merged_by_login := none, created_at := some 1, updated_at := some 1,
                     closed_at := none, merged_at := none },
                   { node_id := "p2", repository_full_name := "org/b", user_login := "u",
                     merged_by_login := none, created_at := some 2, updated_at := some 2,
                     closed_at := none, merged_at := none }],
           releases := [], commits := [], jiras := [], reviews := [],
           review_comments := [], review_requests := [], comments := [], labels := [] }
  facts := []
  repositories := ["org/a", "org/b"]
  participants := []
  labels := ⟨[], []⟩
  jira := ⟨⟨[], []⟩, [], []⟩
  matched_bys := []

/-- A narrower follow-up request for `{org/a}` alone. -/
def reqC1narrow : MineRequest where
  date_to := 10
  repositories := ["org/a"]
  participants := []
  labels := ⟨[], []⟩
  jira := ⟨⟨[], []⟩, [], []⟩
  pr_blacklist := []
  truncate := true

/-- A wider follow-up request for `{org/a, org/c}`. -/
def reqC1wide : MineRequest where
  date_to := 10
  repositories := ["org/a", "org/c"]
  participants := []
  labels := ⟨[], []⟩
  jira := ⟨⟨[], []⟩, [], []⟩
  pr_blacklist := []
  truncate := true

/-- The fresh fetch result for the wider request. -/
def fetchC1 : MineResult where
  dfs := { prs := [], releases := [], commits := [], jiras := [], reviews := [],
           review_comments := [], review_requests := [], comments := [], labels := [] }
  facts := []
  repositories := ["org/a", "org/c"]
  participants := []
  labels := ⟨[], []⟩
  jira := ⟨⟨[], []⟩, [], []⟩
  matched_bys := []

theorem cached_mine_postprocess_witness :
    cachedCallWithPostprocess (some cachedC1)
        (fun v => postprocessCachedPrs v reqC1narrow) fetchC1
      = ⟨pruneCachedResult cachedC1 reqC1narrow, false, some cachedC1⟩
    ∧ cachedCallWithPostprocess (some cachedC1)
        (fun v => postprocessCachedPrs v reqC1wide) fetchC1
      = ⟨fetchC1, true, some fetchC1⟩ :=
  ⟨(cached_mine_postprocess cachedC1 reqC1narrow fetchC1).1 (by decide),
   (cached_mine_postprocess cachedC1 reqC1wide fetchC1).2 (by decide)⟩

/-- pandas `Index.duplicated()` with the default `keep="first"`, applied as
`prs[~prs.index.duplicated()]`: keep each row whose node id has not been seen
at an earlier position. -/
def dedupFirstAux : List PRRow → List String → List PRRow
  | [], _ => []
  | r :: rest, seen =>
    if seen.contains r.node_id then dedupFirstAux rest seen
    else r :: dedupFirstAux rest (r.node_id :: seen)

/-- De-duplicate the concatenated work-item rows by node id, first occurrence
surviving. -/
def dedupFirst (l : List PRRow) : List PRRow :=
  dedupFirstAux l []

/-- Descending order on `updated_at` values; `NaT` sorts as largest, as in
numpy. -/
def updKeyGe (a b : Option Nat) : Bool :=
  match a, b with
  | none, _ => true
  | some _, none => false
  | some x, some y => decide (y ≤ x)

/-- The row-limit step of `_mine`:
`prs.take(np.argpartition(updated_at)[len(prs)-limit:])` keeps the `limit`
rows with the largest update timestamps.  `argpartition` fixes no order among
them (and `_mine` re-sorts by node id right afterwards), so the kept set is
modelled by a descending sort followed by `take`. -/
def applyLimit (l : List PRRow) (limit : Nat) : List PRRow :=
  if 0 < limit ∧ limit < l.length then
    (l.mergeSort (fun a b => updKeyGe a.updated_at b.updated_at)).take limit
  else l

/-- The concatenate / de-duplicate / limit sequence of `_mine` (the pandas
concatenation order is: directly queried rows, then release-mapped rows, then
merged-but-unreleased rows). -/
def assemblePrs (direct released unreleased : List PRRow) (limit : Nat) : List PRRow :=
  applyLimit (dedupFirst (direct ++ released ++ unreleased)) limit

theorem dedupFirstAux_find (l : List PRRow) (seen : List String) (id : String)
    (hid : seen.contains id = false) :
    (dedupFirstAux l seen).find? (fun r => r.node_id == id)
      = l.find? (fun r => r.node_id == id) := by
  induction l generalizing seen with
  | nil => rfl
  | cons a as ih =>
    simp only [dedupFirstAux]
    by_cases hcont : seen.contains a.node_id = true
    · have hne : ¬ ((a.node_id == id) = true) := by
        rw [beq_iff_eq]
        intro heq
        rw [heq] at hcont
        rw [hcont] at hid
        exact absurd hid (by decide)
      rw [if_pos hcont]
      have hrw : List.find? (fun r => r.node_id == id) (a :: as)
          = List.find? (fun r => r.node_id == id) as := List.find?_cons_of_neg as hne
      rw [hrw]
      exact ih seen hid
    · rw [if_neg hcont]
      by_cases heq : (a.node_id == id) = true
      · have h1 : List.find? (fun r => r.node_id == id)
            (a :: dedupFirstAux as (a.node_id :: seen)) = some a :=
          List.find?_cons_of_pos _ heq
        have h2 : List.find? (fun r => r.node_id == id) (a :: as) = some a :=
          List.find?_cons_of_pos _ heq
        rw [h1, h2]
      · have hid2 : (a.node_id :: seen).contains id = false := by
          simp only [List.contains_cons, Bool.or_eq_false_iff]
          refine ⟨?_, hid⟩
          rw [Bool.not_eq_true] at heq
          rwa [BEq.comm]
        have h1 : List.find? (fun r => r.node_id == id)
            (a :: dedupFirstAux as (a.node_id :: seen))
            = List.find? (fun r => r.node_id == id) (dedupFirstAux as (a.node_id :: seen)) :=
          List.find?_cons_of_neg _ heq
        have h2 : List.find? (fun r => r.node_id == id) (a :: as)
            = List.find? (fun r => r.node_id == id) as :=
          List.find?_cons_of_neg as heq
        rw [h1, h2]
        exact ih _ hid2

theorem updKeyGe_trans (a b c : Option Nat) (hab : updKeyGe a b = true)
    (hbc : updKeyGe b c = true) : updKeyGe a c = true := by
  cases a <;> cases b <;> cases c <;> simp [updKeyGe] at * <;> omega

theorem updKeyGe_total (a b : Option Nat) : (updKeyGe a b || updKeyGe b a) = true := by
  cases a <;> cases b <;> simp [updKeyGe] <;> omega

/-- C5 (amended): after concatenating the three result sets in the order
(directly queried, release-mapped, merged-but-unreleased) the de-duplication
keeps, for every node id, the row of the EARLIER source (pandas
`duplicated(keep="first")`), and with a positive row limit smaller than the
de-duplicated row count, exactly `limit` rows are kept, all drawn from the
de-duplicated rows, and the `updated_at` of every kept row is at least that
of every dropped row. -/
theorem assemble_prs_dedup_limit (direct released unreleased : List PRRow)
    (limit : Nat) (id : String)
    (hpos : 0 < limit)
    (hlt : limit < (dedupFirst (direct ++ released ++ unreleased)).length) :
    ((assemblePrs direct released unreleased 0).find? (fun r => r.node_id == id)
        = (direct ++ released ++ unreleased).find? (fun r => r.node_id == id))
    ∧ (assemblePrs direct released unreleased limit).length = limit
    ∧ (∀ x ∈ assemblePrs direct released unreleased limit,
        x ∈ dedupFirst (direct ++ released ++ unreleased))
    ∧ (∀ x ∈ assemblePrs direct released unreleased limit,
        ∀ y ∈ dedupFirst (direct ++ released ++ unreleased),
          y ∉ assemblePrs direct released unreleased limit →
            updKeyGe x.updated_at y.updated_at = true) := by
  have hsorted := List.sorted_mergeSort
    (fun a b c => updKeyGe_trans a.updated_at b.updated_at c.updated_at)
    (fun a b => updKeyGe_total a.updated_at b.updated_at)
    (dedupFirst (direct ++ released ++ unreleased))
  have happly : assemblePrs direct released unreleased limit
      = ((dedupFirst (direct ++ released ++ unreleased)).mergeSort
          (fun a b => updKeyGe a.updated_at b.updated_at)).take limit := by
    simp only [assemblePrs, applyLimit]
    rw [if_pos ⟨hpos, hlt⟩]
  refine ⟨?_, ?_, ?_, ?_⟩
  · have : assemblePrs direct released unreleased 0
        = dedupFirst (direct ++ released ++ unreleased) := by
      simp [assemblePrs, applyLimit]
    rw [this]
    exact dedupFirstAux_find _ [] id rfl
  · rw [happly, List.length_take, List.length_mergeSort]
    omega
  · intro x hx
    rw [happly] at hx
    have := List.mem_of_mem_take hx
    rwa [List.mem_mergeSort] at this
  · intro x hx y hy hyn
    rw [happly] at hx hyn
    have hymem : y ∈ (dedupFirst (direct ++ released ++ unreleased)).mergeSort
        (fun a b => updKeyGe a.updated_at b.updated_at) := by
      rwa [List.mem_mergeSort]
    rw [← List.take_append_drop limit ((dedupFirst (direct ++ released ++ unreleased)).mergeSort
        (fun a b => updKeyGe a.updated_at b.updated_at))] at hymem
    rcases List.mem_append.mp hymem with h | h
    · exact absurd h hyn
    · exact List.Sorted.rel_of_mem_take_of_mem_drop hsorted hx h

/-- Two distinct rows for the same node id "a": one from the direct query, a
fresher one from the release mapping. -/
def prA1 : PRRow where
  node_id := "a"
  repository_full_name := "org/r"
  user_login := "u"
  merged_by_login := none
  created_at := some 1
  updated_at := some 1
  closed_at := none
  merged_at := none

/-- The later-source row for node id "a". -/
def prA2 : PRRow where
  node_id := "a"
  repository_full_name := "org/r"
  user_login := "u"
  merged_by_login := none
  created_at := some 1
  updated_at := some 2
  closed_at := none
  merged_at := none

/-- C5 counterexample: the directly queried row wins the de-duplication tie —
the row from the later source (the release-mapped set) is discarded, contrary
to the claim that later sources win. -/
theorem assemble_prs_first_wins_counterexample :
    assemblePrs [prA1] [prA2] [] 0 = [prA1] ∧ prA1 ≠ prA2 := by decide

/-- A row for a second node id "b". -/
def prB : PRRow where
  node_id := "b"
  repository_full_name := "org/r"
  user_login := "u"
  merged_by_login := none
  created_at := some 1
  updated_at := some 9
  closed_at := none
  merged_at := none

theorem assemble_prs_dedup_limit_witness :
    ((assemblePrs [prA1, prB] [prA2] [] 0).find? (fun r => r.node_id == "a")
        = ([prA1, prB] ++ [prA2] ++ []).find? (fun r => r.node_id == "a"))
    ∧ (assemblePrs [prA1, prB] [prA2] [] 1).length = 1
    ∧ (∀ x ∈ assemblePrs [prA1, prB] [prA2] [] 1,
        x ∈ dedupFirst ([prA1, prB] ++ [prA2] ++ []))
    ∧ (∀ x ∈ assemblePrs [prA1, prB] [prA2] [] 1,
        ∀ y ∈ dedupFirst ([prA1, prB] ++ [prA2] ++ []),
          y ∉ assemblePrs [prA1, prB] [prA2] [] 1 →
            updKeyGe x.updated_at y.updated_at = true) :=
  assemble_prs_dedup_limit [prA1, prB] [prA2] [] 1 "a" (by decide) (by decide)

/-- Modelled from the spec: `Fallback<T>` of
`athenian.api.controllers.miners.types` (absent from the sources) — a value
with a designated backup; `best` resolves to the value when present, else
recursively to the `best` of the backup. -/
inductive Fallback (α : Type) where
  | mk : Option α → Option (Fallback α) → Fallback α

/-- `Fallback.best`: the authoritative reading, else that of the backup. -/
def Fallback.best {α : Type} : Fallback α → Option α
  | .mk (some v) _ => some v
  | .mk none (some b) => Fallback.best b
  | .mk none none => none

/-- Python truthiness of a `Fallback`: its `best` is resolvable. -/
def Fallback.isPresent {α : Type} (f : Fallback α) : Bool :=
  f.best.isSome

/-- The strict `>` comparison on two resolvable `Fallback` timestamps, as used
by `_validate` (`a.best > b.best`); false when either side is unresolvable. -/
def bestGt (a b : Fallback Nat) : Bool :=
  match a.best, b.best with
  | some x, some y => decide (y < x)
  | _, _ => false

/-- Modelled from the spec: the `PullRequestFacts` record of
`athenian.api.controllers.miners.types` (absent from the sources) —
Fallback-wrapped lifecycle timestamps plus derived scalar fields. -/
structure PullRequestFacts where
  created : Fallback Nat
  first_commit : Fallback Nat
  last_commit_before_first_review : Fallback Nat
  last_commit : Fallback Nat
  merged : Fallback Nat
  first_comment_on_first_review : Fallback Nat
  first_review_request : Fallback Nat
  last_review : Fallback Nat
  approved : Fallback Nat
  first_passed_checks : Fallback Nat
  last_passed_checks : Fallback Nat
  released : Fallback Nat
  closed : Fallback Nat
  size : Int
  force_push_dropped : Bool

/-- `PullRequestFactsMiner._validate`: with no `closed` timestamp nothing is
checked; otherwise reject when `last_commit > closed`, `created > closed`, or
`merged` and `released` both exist with `merged > released`. -/
def validateRejects (f : PullRequestFacts) : Bool :=
  if f.closed.isPresent then
    (f.last_commit.isPresent && bestGt f.last_commit f.closed)
    || bestGt f.created f.closed
    || (f.merged.isPresent && f.released.isPresent && bestGt f.merged f.released)
  else false

/-- One work item as seen by `PullRequestFactsMiner.__call__`: the raw
additions/deletions columns plus the derived facts. -/
structure FactsItem where
  additions : Option Int
  deletions : Option Int
  facts : PullRequestFacts

/-- The rejection decision of `PullRequestFactsMiner.__call__`: a null
`additions` or `deletions` raises `ImpossiblePullRequest` before `_validate`
runs; otherwise `_validate` decides. -/
def itemRejects (it : FactsItem) : Bool :=
  it.additions.isNone || it.deletions.isNone || validateRejects it.facts

/-- The per-item catch of the batch consumer
(`pull_request_filter.py`: `except ImpossiblePullRequest: continue`): a
rejected item is skipped, the batch survives. -/
def processBatch (l : List FactsItem) : List FactsItem :=
  l.filter (fun it => !itemRejects it)

/-- The `merged and not closed` coercion of `PullRequestFactsMiner.__call__`:
a merged work item with a null `closed_at` is treated as closed at `merged`. -/
def coerceClosed (merged closed : Fallback Nat) : Fallback Nat :=
  if merged.isPresent && !closed.isPresent then merged else closed

/-- After the coercion, a present `merged` forces a present `closed`. -/
theorem coerceClosed_present (merged closed : Fallback Nat)
    (hm : merged.isPresent = true) :
    (coerceClosed merged closed).isPresent = true := by
  unfold coerceClosed
  by_cases hc : closed.isPresent = true
  · simp [hc]
  · simp only [Bool.not_eq_true] at hc
    simp [hm, hc]

theorem coerceClosed_present_witness :
    (coerceClosed (.mk (some 5) none) (.mk none none)).isPresent = true :=
  coerceClosed_present (.mk (some 5) none) (.mk none none) (by decide)

/-- C3 (amended): fact extraction rejects a work item exactly when its
additions or deletions column is null, or the item is closed and
`last_commit > closed`, or `created > closed`, or `merged` and `released` both
exist with `merged > released`; a rejection drops only that item from the
batch, and every surviving record satisfies the ordering invariants.
(The `merged → closed` hypothesis is established by the
`merged and not closed` coercion, cf. `coerceClosed_present`.) -/
theorem facts_validation_exact (it : FactsItem)
    (hmc : it.facts.merged.isPresent = true → it.facts.closed.isPresent = true)
    (hcr : it.facts.created.isPresent = true) :
    (itemRejects it = true ↔
      (it.additions = none ∨ it.deletions = none
       ∨ (it.facts.closed.isPresent = true ∧ it.facts.last_commit.isPresent = true
            ∧ bestGt it.facts.last_commit it.facts.closed = true)
       ∨ (it.facts.closed.isPresent = true ∧ bestGt it.facts.created it.facts.closed = true)
       ∨ (it.facts.merged.isPresent = true ∧ it.facts.released.isPresent = true
            ∧ bestGt it.facts.merged it.facts.released = true)))
    ∧ (itemRejects it = false →
        (∀ cb, it.facts.closed.best = some cb →
          (∀ cr, it.facts.created.best = some cr → cr ≤ cb)
          ∧ (∀ lc, it.facts.last_commit.best = some lc → lc ≤ cb))
        ∧ ¬ (it.facts.merged.isPresent = true ∧ it.facts.released.isPresent = true
              ∧ bestGt it.facts.merged it.facts.released = true))
    ∧ (∀ l : List FactsItem, it ∈ processBatch l ↔ (it ∈ l ∧ itemRejects it = false)) := by
  have hval_pres : validateRejects it.facts = true → it.facts.closed.isPresent = true := by
    intro h
    unfold validateRejects at h
    by_cases hc : it.facts.closed.isPresent = true
    · exact hc
    · rw [if_neg hc] at h
      exact absurd h (by decide)
  refine ⟨?_, ?_, ?_⟩
  · unfold itemRejects
    by_cases hc : it.facts.closed.isPresent = true
    · unfold validateRejects
      rw [if_pos hc]
      simp only [Bool.or_eq_true, Bool.and_eq_true, Option.isNone_iff_eq_none, hc, true_and]
      tauto
    · have hm : ¬ it.facts.merged.isPresent = true := fun hmp => hc (hmc hmp)
      unfold validateRejects
      rw [if_neg hc]
      simp only [Bool.or_eq_true, Bool.and_eq_true, Option.isNone_iff_eq_none,
        Bool.false_eq_true, or_false]
      tauto
  · intro hrej
    unfold itemRejects at hrej
    rw [Bool.or_eq_false_iff, Bool.or_eq_false_iff] at hrej
    obtain ⟨⟨-, -⟩, hv⟩ := hrej
    constructor
    · intro cb hcb
      have hc : it.facts.closed.isPresent = true := by
        simp [Fallback.isPresent, hcb]
      unfold validateRejects at hv
      rw [if_pos hc, Bool.or_eq_false_iff, Bool.or_eq_false_iff] at hv
      obtain ⟨⟨hA, hB⟩, -⟩ := hv
      constructor
      · intro cr hcrv
        unfold bestGt at hB
        rw [hcrv, hcb] at hB
        simp at hB
        omega
      · intro lc hlc
        have hlp : it.facts.last_commit.isPresent = true := by
          simp [Fallback.isPresent, hlc]
        rw [Bool.and_eq_false_iff] at hA
        rcases hA with hA | hA
        · exact absurd hlp (by simp [hA])
        · unfold bestGt at hA
          rw [hlc, hcb] at hA
          simp at hA
          omega
    · rintro ⟨hm, hr, hg⟩
      have hc : it.facts.closed.isPresent = true := hmc hm
      unfold validateRejects at hv
      rw [if_pos hc, Bool.or_eq_false_iff, Bool.or_eq_false_iff] at hv
      obtain ⟨⟨-, -⟩, hC⟩ := hv
      rw [Bool.and_eq_false_iff, Bool.and_eq_false_iff] at hC
      rcases hC with (h | h) | h
      · exact absurd hm (by simp [h])
      · exact absurd hr (by simp [h])
      · exact absurd hg (by simp [h])
  · intro l
    simp [processBatch, List.mem_filter, Bool.not_eq_true']

/-- A consistent item: created 1, merged and closed 5, last commit 4,
released 6, but a null `additions` column. -/
def itemC3 : FactsItem where
  additions := none
  deletions := some 2
  facts := { created := .mk (some 1) none
             first_commit := .mk (some 2) none
             last_commit_before_first_review := .mk none none
             last_commit := .mk (some 4) none
             merged := .mk (some 5) none
             first_comment_on_first_review := .mk none none
             first_review_request := .mk none none
             last_review := .mk none none
             approved := .mk none none
             first_passed_checks := .mk none none
             last_passed_checks := .mk none none
             released := .mk (some 6) none
             closed := .mk (some 5) none
             size := 3
             force_push_dropped := false }

/-- C3 counterexample: `__call__` also raises `ImpossiblePullRequest` for a
null `additions`/`deletions` column, so an item satisfying none of the three
claimed rejection conditions is still rejected. -/
theorem facts_validation_counterexample :
    itemRejects itemC3 = true
    ∧ ¬ ((itemC3.facts.closed.isPresent = true ∧ itemC3.facts.last_commit.isPresent = true
            ∧ bestGt itemC3.facts.last_commit itemC3.facts.closed = true)
       ∨ (itemC3.facts.closed.isPresent = true
            ∧ bestGt itemC3.facts.created itemC3.facts.closed = true)
       ∨ (itemC3.facts.merged.isPresent = true ∧ itemC3.facts.released.isPresent = true
            ∧ bestGt itemC3.facts.merged itemC3.facts.released = true)) := by
  decide

/-- The same facts with a non-null `additions`. -/
def itemC3ok : FactsItem :=
  { itemC3 with additions := some 1 }

theorem facts_validation_exact_witness :
    (itemRejects itemC3ok = true ↔
      (itemC3ok.additions = none ∨ itemC3ok.deletions = none
       ∨ (itemC3ok.facts.closed.isPresent = true
            ∧ itemC3ok.facts.last_commit.isPresent = true
            ∧ bestGt itemC3ok.facts.last_commit itemC3ok.facts.closed = true)
       ∨ (itemC3ok.facts.closed.isPresent = true
            ∧ bestGt itemC3ok.facts.created itemC3ok.facts.closed = true)
       ∨ (itemC3ok.facts.merged.isPresent = true
            ∧ itemC3ok.facts.released.isPresent = true
            ∧ bestGt itemC3ok.facts.merged itemC3ok.facts.released = true)))
    ∧ (itemRejects itemC3ok = false →
        (∀ cb, itemC3ok.facts.closed.best = some cb →
          (∀ cr, itemC3ok.facts.created.best = some cr → cr ≤ cb)
          ∧ (∀ lc, itemC3ok.facts.last_commit.best = some lc → lc ≤ cb))
        ∧ ¬ (itemC3ok.facts.merged.isPresent = true
              ∧ itemC3ok.facts.released.isPresent = true
              ∧ bestGt itemC3ok.facts.merged itemC3ok.facts.released = true))
    ∧ (∀ l : List FactsItem, itemC3ok ∈ processBatch l ↔
        (itemC3ok ∈ l ∧ itemRejects itemC3ok = false)) :=
  facts_validation_exact itemC3ok (by decide) (by decide)

/-- One review row as consumed by the `approved` computation of
`PullRequestFactsMiner.__call__` (`user_id`, `submitted_at`, `state`).
`submitted_at` is modelled as always present. -/
structure Rev where
  user : Nat
  submitted : Nat
  state : String
deriving DecidableEq

/-- `np.argmax` over `submitted_at` followed by `_ixs`: the row at the first
position achieving the maximum. -/
def argmaxFirst (l : List Rev) : Option Rev :=
  match l with
  | [] => none
  | r :: rest =>
    some (rest.foldl (fun best q => if best.submitted < q.submitted then q else best) r)

/-- Insert one row into a list sorted descending by `submitted_at`. -/
def insertDesc (r : Rev) : List Rev → List Rev
  | [] => [r]
  | q :: rest => if q.submitted < r.submitted then r :: q :: rest else q :: insertDesc r rest

/-- `sort_values(submitted_at, ascending=False)` (pandas fixes no order among
equal timestamps; this model picks one). -/
def sortDesc : List Rev → List Rev
  | [] => []
  | r :: rest => insertDesc r (sortDesc rest)

/-- `groupby(user_id)._cumcount_array()`: for each position, how many earlier
rows share its reviewer. -/
def cumcountAux : List Rev → List Rev → List Nat
  | [], _ => []
  | r :: rest, seen =>
    (seen.filter (fun q => q.user == r.user)).length :: cumcountAux rest (seen ++ [r])

/-- Cumulative per-reviewer counts of a review list. -/
def cumcountByUser (l : List Rev) : List Nat :=
  cumcountAux l []

/-- `np.where(array)[0]`: the increasing positions holding non-zero entries. -/
def nonzeroIndices (cs : List Nat) : List Nat :=
  (cs.enum.filter (fun p => p.2 != 0)).map Prod.fst

/-- `.max()` over a series of timestamps: `NaN` (absent) when empty. -/
def maxSubmitted (l : List Rev) : Option Nat :=
  l.foldl (fun acc r =>
    match acc with
    | none => some r.submitted
    | some m => some (max m r.submitted)) none

/-- The `approved` computation of `PullRequestFactsMiner.__call__`
(lines 1061-1114), lane by lane: reviews at or before `merged`; the express
lane (no reviews: the `dummy_reviews` `"INVALID"` row), the fast lane (a
single reviewer: the row at `argmax(submitted_at)`, COMMENTED included), and
the slow lane, which takes the positions of the non-zero entries of the
cumcount array of the descending-sorted non-COMMENTED rows and reads those
positions from the ORIGINAL `reviews_before_merge` frame; a
`CHANGES_REQUESTED` state among the selected rows suppresses approval,
otherwise the maximum `submitted_at` among their `APPROVED` rows is capped at
`closed`. -/
def approvedCode (reviews : List Rev) (merged closed : Option Nat) : Option Nat :=
  let rbm := match merged with
    | some m =>
      if reviews.all (fun r => r.submitted ≤ m) then reviews
      else reviews.filter (fun r => r.submitted ≤ m)
    | none => reviews
  let approvedVal : Option Nat :=
    if rbm.isEmpty then
      none
    else if ((rbm.map (fun r => r.user)).dedup).length == 1 then
      match argmaxFirst rbm with
      | some r =>
        if r.state == "CHANGES_REQUESTED" then none
        else if r.state == "APPROVED" then some r.submitted
        else none
      | none => none
    else
      let noncommented := rbm.filter (fun r => r.state != "COMMENTED")
      let ixs := nonzeroIndices (cumcountByUser (sortDesc noncommented))
      let grouped := ixs.filterMap (fun i => rbm[i]?)
      if grouped.any (fun r => r.state == "CHANGES_REQUESTED") then none
      else maxSubmitted (grouped.filter (fun r => r.state == "APPROVED"))
  match approvedVal, closed with
  | some v, some c => some (min v c)
  | some v, none => some v
  | none, _ => none

/-- The `approved` semantics of the claim: among the reviews submitted at or
before `merged` (all reviews if unmerged), take the most recent
non-"commented" review of each reviewer; a "changes requested" among them
suppresses approval,
otherwise `approved` is the maximum `submitted_at` among the "approved" ones,
capped at `closed`. -/
def approvedSpec (reviews : List Rev) (merged closed : Option Nat) : Option Nat :=
  let rbm : List Rev := match merged with
    | some m => reviews.filter (fun r => r.submitted ≤ m)
    | none => reviews
  let nc : List Rev := rbm.filter (fun r => r.state != "COMMENTED")
  let latest : List Rev := nc.filter (fun r =>
    nc.all (fun q => q.user != r.user || q.submitted ≤ r.submitted))
  if latest.any (fun r => r.state == "CHANGES_REQUESTED") then none
  else
    match maxSubmitted (latest.filter (fun r => r.state == "APPROVED")), closed with
    | some v, some c => some (min v c)
    | some v, none => some v
    | none, _ => none

/-- Reviewer 1 approves at 10 and 30; reviewer 2 requests changes at 20; the
item is merged and closed at 40. -/
def revsC6 : List Rev :=
  [⟨1, 10, "APPROVED"⟩, ⟨2, 20, "CHANGES_REQUESTED"⟩, ⟨1, 30, "APPROVED"⟩]

/-- C6: on `revsC6` the code returns `approved = 30` even though the most
recent (and only) non-commented review of reviewer 2 before the merge is
CHANGES_REQUESTED: the slow lane selects the rows at the non-zero cumcount
positions of a differently-ordered frame (here position 2, the approval of
reviewer 1) instead of the most recent review per reviewer, so the standing
objection is never seen.  The claim (and the code's own comments, "the most
recent review for each reviewer" / "merged with negative reviews") require
`approved` to be absent here. -/
theorem approved_divergence :
    approvedCode revsC6 (some 40) (some 40) = some 30
    ∧ approvedSpec revsC6 (some 40) (some 40) = none := by
  decide
